import Mathlib

/-!
Verification of the pdf-extraction-pipeline repository.

This file shallowly embeds the data model and operations of the pipeline:
job/task orchestration (`src/utils/tasks_repository.py`, `src/main.py`),
PDF text extraction (`src/extraction/extraction.py`), and filesystem path
resolution and output writing (`src/utils/directory_manager.py`,
`src/pipeline.py`).  Database tables become lists of records, SQL `COUNT`
aggregates become `countWhere`, filesystem existence becomes an explicit
`String → Bool` predicate, and Python exceptions become `Except` values.
-/

-- =======================================================================
-- Status enumerations (string-keyed status columns in the store)
-- =======================================================================

inductive TaskStatus
  | pending
  | in_progress
  | completed
  | failed
deriving DecidableEq, Repr

inductive JobStatus
  | pending
  | in_progress
  | completed
  | failed
deriving DecidableEq, Repr

inductive SummaryStatus
  | not_summarized
  | summarized
deriving DecidableEq, Repr

def isCompleted : TaskStatus → Bool
  | .completed => true
  | _ => false

def isFailedStatus : TaskStatus → Bool
  | .failed => true
  | _ => false

def isTerminal : TaskStatus → Bool
  | .completed => true
  | .failed => true
  | _ => false

def isSummarized : SummaryStatus → Bool
  | .summarized => true
  | _ => false

-- =======================================================================
-- SQL COUNT(CASE WHEN ...) aggregates
-- =======================================================================

/-- `COUNT(CASE WHEN p THEN 1 END)` over a list of rows. -/
def countWhere (p : α → Bool) (l : List α) : Nat :=
  (l.filter p).length

theorem countWhere_nil (p : α → Bool) : countWhere p [] = 0 := rfl

theorem countWhere_cons (p : α → Bool) (x : α) (l : List α) :
    countWhere p (x :: l) = (if p x then 1 else 0) + countWhere p l := by
  simp only [countWhere, List.filter_cons]
  split <;> simp [List.length_cons, Nat.add_comm]

theorem countWhere_le_length (p : α → Bool) (l : List α) :
    countWhere p l ≤ l.length := by
  induction l with
  | nil => simp [countWhere_nil]
  | cons x l ih =>
    rw [countWhere_cons]
    split <;> simp [List.length_cons] <;> omega

theorem countWhere_eq_length_iff (p : α → Bool) (l : List α) :
    countWhere p l = l.length ↔ ∀ x ∈ l, p x = true := by
  induction l with
  | nil => simp [countWhere_nil]
  | cons x l ih =>
    rw [countWhere_cons]
    have hle := countWhere_le_length p l
    constructor
    · intro h y hy
      rcases List.mem_cons.mp hy with hy | hy
      · by_contra hpx
        simp only [Bool.not_eq_true] at hpx
        subst hy
        rw [hpx] at h
        simp only [List.length_cons] at h
        rw [if_neg (by decide : ¬ (false = true))] at h
        omega
      · have hl : countWhere p l = l.length := by
          simp only [List.length_cons] at h
          by_cases hpx : p x = true
          · rw [if_pos hpx] at h; omega
          · rw [if_neg hpx] at h; omega
        exact (ih.mp hl) y hy
    · intro h
      have hx := h x (List.mem_cons_self x l)
      rw [if_pos hx]
      have hl : countWhere p l = l.length :=
        ih.mpr (fun y hy => h y (List.mem_cons_of_mem x hy))
      simp [hl, List.length_cons, Nat.add_comm]

theorem countWhere_eq_zero_iff (p : α → Bool) (l : List α) :
    countWhere p l = 0 ↔ ∀ x ∈ l, p x = false := by
  induction l with
  | nil => simp [countWhere_nil]
  | cons x l ih =>
    rw [countWhere_cons]
    by_cases hpx : p x = true
    · rw [if_pos hpx]
      constructor
      · intro h; omega
      · intro h
        have := h x (List.mem_cons_self x l)
        rw [hpx] at this
        exact absurd this (by simp)
    · simp only [Bool.not_eq_true] at hpx
      rw [if_neg (by simp [hpx])]
      simp only [Nat.zero_add, ih]
      constructor
      · intro h y hy
        rcases List.mem_cons.mp hy with hy | hy
        · subst hy; exact hpx
        · exact h y hy
      · intro h y hy
        exact h y (List.mem_cons_of_mem x hy)

theorem countWhere_pos_iff (p : α → Bool) (l : List α) :
    0 < countWhere p l ↔ ∃ x ∈ l, p x = true := by
  constructor
  · intro h
    by_contra hne
    push_neg at hne
    have h0 : countWhere p l = 0 := (countWhere_eq_zero_iff p l).mpr (fun x hx => by
      have := hne x hx
      simpa using this)
    omega
  · rintro ⟨x, hx, hpx⟩
    by_contra h0
    push_neg at h0
    have : countWhere p l = 0 := by omega
    have := (countWhere_eq_zero_iff p l).mp this x hx
    rw [hpx] at this
    exact absurd this (by simp)

theorem countWhere_add_le_length (p q : α → Bool) (l : List α)
    (hdisj : ∀ x, ¬(p x = true ∧ q x = true)) :
    countWhere p l + countWhere q l ≤ l.length := by
  induction l with
  | nil => simp [countWhere_nil]
  | cons x l ih =>
    rw [countWhere_cons p, countWhere_cons q]
    by_cases hpx : p x = true
    · have hqx : ¬ q x = true := fun hq => hdisj x ⟨hpx, hq⟩
      rw [if_pos hpx, if_neg hqx]
      simp only [List.length_cons]
      omega
    · rw [if_neg hpx]
      by_cases hqx : q x = true
      · rw [if_pos hqx]
        simp only [List.length_cons]
        omega
      · rw [if_neg hqx]
        simp only [List.length_cons]
        omega

theorem countWhere_add_eq_length_iff (p q : α → Bool) (l : List α)
    (hdisj : ∀ x, ¬(p x = true ∧ q x = true)) :
    countWhere p l + countWhere q l = l.length ↔ ∀ x ∈ l, p x = true ∨ q x = true := by
  induction l with
  | nil => simp [countWhere_nil]
  | cons x l ih =>
    rw [countWhere_cons p, countWhere_cons q]
    have hsum := countWhere_add_le_length p q l hdisj
    constructor
    · intro h y hy
      rcases List.mem_cons.mp hy with hy | hy
      · subst hy
        by_contra hne
        push_neg at hne
        obtain ⟨h1, h2⟩ := hne
        simp only [Bool.not_eq_true] at h1 h2
        rw [h1, h2] at h
        simp at h
        omega
      · have hrest : countWhere p l + countWhere q l = l.length := by
          simp only [List.length_cons] at h
          by_cases hpx : p x = true
          · have hqx : ¬ q x = true := fun hq => hdisj x ⟨hpx, hq⟩
            rw [if_pos hpx, if_neg hqx] at h
            omega
          · rw [if_neg hpx] at h
            by_cases hqx : q x = true
            · rw [if_pos hqx] at h; omega
            · rw [if_neg hqx] at h; omega
        exact (ih.mp hrest) y hy
    · intro h
      have hx := h x (List.mem_cons_self x l)
      have hrest : countWhere p l + countWhere q l = l.length :=
        ih.mpr (fun y hy => h y (List.mem_cons_of_mem x hy))
      rcases hx with hx | hx
      · have hqx : ¬ q x = true := fun hq => hdisj x ⟨hx, hq⟩
        rw [if_pos hx, if_neg hqx]
        simp only [List.length_cons]
        omega
      · by_cases hpx : p x = true
        · exact absurd ⟨hpx, hx⟩ (hdisj x)
        · rw [if_neg hpx, if_pos hx]
          simp only [List.length_cons]
          omega

-- =======================================================================
-- Job status aggregation (src/utils/tasks_repository.py)
--
-- The module defines `check_and_update_job_status` and `mark_job_completed`
-- TWICE.  The earlier pair (lines 49-174) aggregates over Task statuses;
-- the later pair (lines 376-476) aggregates over DemandFile summaryStatus.
-- Python rebinds the names, so at runtime every call resolves to the later,
-- demand-file-based pair; the task-based pair is dead code.  Both are
-- embedded here as pure functions of the row statuses and the job's
-- current status.
-- =======================================================================

/-- Lines 376-410: `check_all_demand_files_summarized`.  Counts total and
summarized demand files for the job; `False` when no demand files exist. -/
def check_all_demand_files_summarized (fs : List SummaryStatus) : Bool :=
  let total := fs.length
  let summarized := countWhere isSummarized fs
  if total = 0 then false
  else summarized == total

/-- Lines 413-438: the later (effective) `mark_job_completed` — marks the
job completed only if all demand files are summarized, else leaves it. -/
def mark_job_completed_files (fs : List SummaryStatus) (current : JobStatus) : JobStatus :=
  if check_all_demand_files_summarized fs then JobStatus.completed else current

/-- Lines 441-476: the later (effective) `check_and_update_job_status` —
if all demand files are summarized mark the job completed, otherwise leave
the job status unchanged.  There is no failed branch in this variant. -/
def check_and_update_job_status_files (fs : List SummaryStatus) (current : JobStatus) : JobStatus :=
  let total := fs.length
  let summarized := countWhere isSummarized fs
  if total = 0 then current
  else if summarized = total then mark_job_completed_files fs current
  else current

/-- Lines 49-84: `check_all_tasks_completed` — true when the job has at
least one task and every task is terminal (completed or failed). -/
def check_all_tasks_completed (ts : List TaskStatus) : Bool :=
  let total := ts.length
  let completed := countWhere isCompleted ts
  let failed := countWhere isFailedStatus ts
  if total = 0 then false
  else (completed + failed) == total

/-- Lines 87-112: the earlier (shadowed) `mark_job_completed`, guarded by
`check_all_tasks_completed`. -/
def mark_job_completed_tasks (ts : List TaskStatus) (current : JobStatus) : JobStatus :=
  if check_all_tasks_completed ts then JobStatus.completed else current

/-- Lines 128-174: the earlier (shadowed) `check_and_update_job_status`,
aggregating over the job's task statuses. -/
def check_and_update_job_status_tasks (ts : List TaskStatus) (current : JobStatus) : JobStatus :=
  let total := ts.length
  let completed := countWhere isCompleted ts
  let failed := countWhere isFailedStatus ts
  if total = 0 then current
  else if completed = total then mark_job_completed_tasks ts current
  else if completed + failed = total ∧ 0 < failed then JobStatus.failed
  else current

-- Spec-side pure aggregation functions (following the spec's words, for
-- comparison with the code-side definitions above).

/-- The spec's pure job-status function over source-file summary statuses:
completed iff all terminal and successful (= summarized); in_progress if
any is non-terminal (= not_summarized); no failure state exists for
`summaryStatus`. -/
def specJobStatusOfFiles (fs : List SummaryStatus) : JobStatus :=
  if fs.all isSummarized then JobStatus.completed else JobStatus.in_progress

/-- The spec's pure job-status function over task statuses: completed iff
all completed; failed iff all terminal with at least one failed;
in_progress otherwise. -/
def specJobStatusOfTasks (ts : List TaskStatus) : JobStatus :=
  if ts.all isCompleted then JobStatus.completed
  else if ts.all isTerminal && ts.any isFailedStatus then JobStatus.failed
  else JobStatus.in_progress

theorem isTerminal_iff (x : TaskStatus) :
    isTerminal x = true ↔ isCompleted x = true ∨ isFailedStatus x = true := by
  cases x <;> simp [isTerminal, isCompleted, isFailedStatus]

theorem isCompleted_isFailed_disjoint (x : TaskStatus) :
    ¬(isCompleted x = true ∧ isFailedStatus x = true) := by
  cases x <;> simp [isCompleted, isFailedStatus]

theorem isCompleted_not_failed (x : TaskStatus) (h : isCompleted x = true) :
    isFailedStatus x = false := by
  cases x <;> simp_all [isCompleted, isFailedStatus]

/-- C1 counterexample: the claim "after each status aggregation the job's
status equals the pure function of the statuses" fails at the empty row
set (the code returns early leaving the prior status, while the pure
function vacuously yields completed) and at a prior status other than
in_progress (the code leaves the prior status unchanged rather than
setting in_progress). -/
theorem job_status_aggregation_cex :
    (check_and_update_job_status_files [] JobStatus.in_progress = JobStatus.in_progress
      ∧ specJobStatusOfFiles [] = JobStatus.completed
      ∧ JobStatus.in_progress ≠ JobStatus.completed)
    ∧ (check_and_update_job_status_files [SummaryStatus.not_summarized] JobStatus.pending
        = JobStatus.pending
      ∧ specJobStatusOfFiles [SummaryStatus.not_summarized] = JobStatus.in_progress
      ∧ JobStatus.pending ≠ JobStatus.in_progress)
    ∧ check_and_update_job_status_tasks [] JobStatus.in_progress ≠ specJobStatusOfTasks [] := by
  decide

/-- C1 (amended): for a job with at least one row whose status is
in_progress when aggregation runs, the aggregated job status equals the
pure function of the row statuses — in the effective demand-file variant:
completed iff all files summarized, otherwise in_progress; in the shadowed
task variant: completed iff all tasks completed, failed iff all terminal
with at least one failure, otherwise in_progress — and re-aggregating an
unchanged row set never changes the status (idempotence, any prior). -/
theorem job_status_aggregation_pure :
    (∀ fs : List SummaryStatus, fs ≠ [] →
      check_and_update_job_status_files fs JobStatus.in_progress = specJobStatusOfFiles fs)
    ∧ (∀ ts : List TaskStatus, ts ≠ [] →
      check_and_update_job_status_tasks ts JobStatus.in_progress = specJobStatusOfTasks ts)
    ∧ (∀ (fs : List SummaryStatus) (j : JobStatus),
      check_and_update_job_status_files fs (check_and_update_job_status_files fs j)
        = check_and_update_job_status_files fs j)
    ∧ (∀ (ts : List TaskStatus) (j : JobStatus),
      check_and_update_job_status_tasks ts (check_and_update_job_status_tasks ts j)
        = check_and_update_job_status_tasks ts j) := by
  refine ⟨?_, ?_, ?_, ?_⟩
  · intro fs hne
    have hlen : fs.length ≠ 0 := by
      intro h0; exact hne (List.eq_nil_of_length_eq_zero h0)
    by_cases hc : countWhere isSummarized fs = fs.length
    · have hall : fs.all isSummarized = true :=
        List.all_eq_true.mpr ((countWhere_eq_length_iff _ _).mp hc)
      simp [check_and_update_job_status_files, mark_job_completed_files,
        check_all_demand_files_summarized, specJobStatusOfFiles, hlen, hc, hall]
    · have hall : ¬ fs.all isSummarized = true := by
        intro hall
        exact hc ((countWhere_eq_length_iff _ _).mpr (List.all_eq_true.mp hall))
      simp [check_and_update_job_status_files, specJobStatusOfFiles, hlen, hc, hall]
  · intro ts hne
    have hlen : ts.length ≠ 0 := by
      intro h0; exact hne (List.eq_nil_of_length_eq_zero h0)
    by_cases hca : countWhere isCompleted ts = ts.length
    · have hallc : ∀ x ∈ ts, isCompleted x = true := (countWhere_eq_length_iff _ _).mp hca
      have hall : ts.all isCompleted = true := List.all_eq_true.mpr hallc
      have hf0 : countWhere isFailedStatus ts = 0 :=
        (countWhere_eq_zero_iff _ _).mpr (fun x hx => isCompleted_not_failed x (hallc x hx))
      simp [check_and_update_job_status_tasks, mark_job_completed_tasks,
        check_all_tasks_completed, specJobStatusOfTasks, hlen, hca, hf0, hall]
    · by_cases hcb : countWhere isCompleted ts + countWhere isFailedStatus ts = ts.length
        ∧ 0 < countWhere isFailedStatus ts
      · obtain ⟨hsum, hposf⟩ := hcb
        have hterm : ∀ x ∈ ts, isCompleted x = true ∨ isFailedStatus x = true :=
          (countWhere_add_eq_length_iff _ _ _ isCompleted_isFailed_disjoint).mp hsum
        have hallt : ts.all isTerminal = true :=
          List.all_eq_true.mpr (fun x hx => (isTerminal_iff x).mpr (hterm x hx))
        have hanyf : ts.any isFailedStatus = true := by
          obtain ⟨x, hx, hfx⟩ := (countWhere_pos_iff _ _).mp hposf
          exact List.any_eq_true.mpr ⟨x, hx, hfx⟩
        have hallc : ¬ ts.all isCompleted = true := by
          intro hall
          exact hca ((countWhere_eq_length_iff _ _).mpr (List.all_eq_true.mp hall))
        simp [check_and_update_job_status_tasks, specJobStatusOfTasks,
          hlen, hca, hsum, hposf, hallt, hanyf, hallc]
      · have hallc : ¬ ts.all isCompleted = true := by
          intro hall
          exact hca ((countWhere_eq_length_iff _ _).mpr (List.all_eq_true.mp hall))
        have hnotboth : ¬ (ts.all isTerminal && ts.any isFailedStatus) = true := by
          intro hb
          rw [Bool.and_eq_true] at hb
          obtain ⟨hallt, hanyf⟩ := hb
          have hterm : ∀ x ∈ ts, isCompleted x = true ∨ isFailedStatus x = true :=
            fun x hx => (isTerminal_iff x).mp (List.all_eq_true.mp hallt x hx)
          have hsum : countWhere isCompleted ts + countWhere isFailedStatus ts = ts.length :=
            (countWhere_add_eq_length_iff _ _ _ isCompleted_isFailed_disjoint).mpr hterm
          have hposf : 0 < countWhere isFailedStatus ts := by
            obtain ⟨x, hx, hfx⟩ := List.any_eq_true.mp hanyf
            exact (countWhere_pos_iff _ _).mpr ⟨x, hx, hfx⟩
          exact hcb ⟨hsum, hposf⟩
        simp [check_and_update_job_status_tasks, specJobStatusOfTasks,
          hlen, hca, hcb, hallc, hnotboth]
  · intro fs j
    by_cases hlen : fs.length = 0
    · simp [check_and_update_job_status_files, hlen]
    · by_cases hc : countWhere isSummarized fs = fs.length
      · simp [check_and_update_job_status_files, mark_job_completed_files,
          check_all_demand_files_summarized, hlen, hc]
      · simp [check_and_update_job_status_files, hlen, hc]
  · intro ts j
    by_cases hlen : ts.length = 0
    · simp [check_and_update_job_status_tasks, hlen]
    · by_cases hca : countWhere isCompleted ts = ts.length
      · have hf0 : countWhere isFailedStatus ts = 0 :=
          (countWhere_eq_zero_iff _ _).mpr
            (fun x hx => isCompleted_not_failed x ((countWhere_eq_length_iff _ _).mp hca x hx))
        simp [check_and_update_job_status_tasks, mark_job_completed_tasks,
          check_all_tasks_completed, hlen, hca, hf0]
      · by_cases hcb : countWhere isCompleted ts + countWhere isFailedStatus ts = ts.length
          ∧ 0 < countWhere isFailedStatus ts
        · simp [check_and_update_job_status_tasks, hlen, hca, hcb]
        · simp [check_and_update_job_status_tasks, hlen, hca, hcb]

/-- Witness for `job_status_aggregation_pure` at concrete nonempty row
sets. -/
theorem job_status_aggregation_pure_witness :
    check_and_update_job_status_files [SummaryStatus.summarized] JobStatus.in_progress
      = specJobStatusOfFiles [SummaryStatus.summarized]
    ∧ check_and_update_job_status_tasks [TaskStatus.completed, TaskStatus.failed]
        JobStatus.in_progress
      = specJobStatusOfTasks [TaskStatus.completed, TaskStatus.failed] :=
  ⟨job_status_aggregation_pure.1 [SummaryStatus.summarized] (by decide),
   job_status_aggregation_pure.2.1 [TaskStatus.completed, TaskStatus.failed] (by decide)⟩

-- =======================================================================
-- Path-string model (shared by the Path Resolver and the Output Writer)
--
-- Paths are modelled as the strings the Python code produces: `Path(s)`
-- is `s`, `Path(a) / b` is `a ++ "/" ++ b`, `Path(s).parent` drops the
-- last `/`-separated component, and `.lstrip('/')` drops leading slashes.
-- Filesystem existence is an explicit `String → Bool` predicate argument.
-- =======================================================================

def lstripSlash (s : String) : String :=
  String.mk (s.toList.dropWhile (fun c => c == '/'))

def pjoin (a b : String) : String := a ++ "/" ++ b

/-- Python `s.startswith(pre)` (structural, so proofs can evaluate it). -/
def strStartsWith (s pre : String) : Bool :=
  pre.toList.isPrefixOf s.toList

/-- Split a character list at a separator character. -/
def splitOnChar (c : Char) : List Char → List (List Char)
  | [] => [[]]
  | x :: xs =>
      let r := splitOnChar c xs
      if x == c then [] :: r
      else
        match r with
        | [] => [[x]]
        | h :: t => (x :: h) :: t

/-- The `/`-separated components of a path string. -/
def pathComponents (s : String) : List String :=
  (splitOnChar '/' s.toList).map String.mk

/-- `Path(s).parent`: drop the last path component. -/
def parentPath (s : String) : String :=
  let comps := pathComponents s
  if comps.length ≤ 1 then "."
  else
    let r := String.intercalate "/" comps.dropLast
    if r = "" then "/" else r

/-- `base = current; for _ in range(level): base = base.parent`. -/
def upLevels : Nat → String → String
  | 0, s => s
  | n + 1, s => parentPath (upLevels n s)

/-- Python string truthiness for an optional environment value. -/
def strTruthy : Option String → Option String
  | some s => if s = "" then none else some s
  | none => none

/-- Python `os.getenv(A) or os.getenv(B)`: the first truthy value. -/
def envOr (a b : Option String) : Option String :=
  match strTruthy a with
  | some s => some s
  | none => strTruthy b

/-- Substring search on character lists. -/
def listContainsSub (pat : List Char) : List Char → Bool
  | [] => pat.isEmpty
  | x :: xs => pat.isPrefixOf (x :: xs) || listContainsSub pat xs

/-- Python `pat in s` substring test. -/
def containsSub (s pat : String) : Bool :=
  listContainsSub pat.toList s.toList

-- =======================================================================
-- Path Resolver, find-existing direction
-- (src/extraction/extraction.py, fetch_pdf_from_database, lines 53-147)
-- =======================================================================

/-- The ordered fallback candidate chain of `fetch_pdf_from_database`:
strategy 1 — the stored path as-is; strategy 2 — the environment uploads
base joined with the path (leading slash stripped); strategy 3 (only for
Unix-absolute paths) — the stripped path bare, joined to the CWD, joined
to ancestors of the CWD 0-3 levels up, and, when the CWD mentions
`legasys`, sibling-convention bases 1-3 levels up and their parents. -/
def resolveCandidates (uploadsBase : Option String) (cwd : String) (filePath : String) :
    List String :=
  let strategy1 := [filePath]
  let strategy2 :=
    match uploadsBase with
    | some base =>
        let rel := if strStartsWith filePath "/" then lstripSlash filePath else filePath
        [pjoin base rel]
    | none => []
  let strategy3 :=
    if strStartsWith filePath "/" then
      let rel := lstripSlash filePath
      [rel, pjoin cwd rel]
        ++ (List.range 4).map (fun level => pjoin (upLevels level cwd) rel)
        ++ (if containsSub cwd "legasys-dev" || containsSub cwd "legasys" then
              (([1, 2, 3] : List Nat).map (fun level =>
                  let base := upLevels level cwd
                  [pjoin base rel, pjoin (parentPath base) rel])).flatten
            else [])
    else []
  strategy1 ++ strategy2 ++ strategy3

/-- The diagnostic raised when every candidate is missing (lines 131-144):
the first 10 attempted candidates in attempt order, the total number of
attempts, the original stored path, and the current working directory. -/
structure ResolveError where
  shownAttempts : List String
  totalAttempts : Nat
  originalPath : String
  cwdPath : String
deriving DecidableEq, Repr

/-- One `attempted_paths.append(...); if test_path.exists(): pdf_path = ...`
step: once a path has been found, later candidates are neither recorded
nor checked (the source skips them via `if pdf_path is None` guards and
loop breaks). -/
def tryCandidate (exists? : String → Bool) (acc : Option String × List String) (p : String) :
    Option String × List String :=
  match acc.1 with
  | some _ => acc
  | none => (if exists? p then some p else none, acc.2 ++ [p])

/-- `fetch_pdf_from_database`, resolution part (lines 53-147).  The DB
prologue that selects the stored path is modelled by `coalesceFilePath`
below; the final `open(pdf_path, "rb").read()` reads the resolved path. -/
def fetch_pdf_from_database (exists? : String → Bool)
    (envUploadsBaseDir envFileStoragePath : Option String) (cwd filePath : String) :
    Except ResolveError String :=
  match (resolveCandidates (envOr envUploadsBaseDir envFileStoragePath) cwd filePath).foldl
      (tryCandidate exists?) (none, []) with
  | (some p, _) => Except.ok p
  | (none, attempted) => Except.error ⟨attempted.take 10, attempted.length, filePath, cwd⟩

/-- The attempted-path prefix of a candidate list: everything up to and
including the first hit, or the whole list when nothing exists. -/
def prefixUntil (p : α → Bool) : List α → List α
  | [] => []
  | x :: xs => if p x then [x] else x :: prefixUntil p xs

theorem foldl_tryCandidate_found (exists? : String → Bool) (l : List String) (p : String)
    (as : List String) :
    l.foldl (tryCandidate exists?) (some p, as) = (some p, as) := by
  induction l generalizing as with
  | nil => rfl
  | cons x xs ih =>
    rw [List.foldl_cons]
    exact ih as

theorem foldl_tryCandidate_none (exists? : String → Bool) (l : List String) (as : List String) :
    l.foldl (tryCandidate exists?) (none, as)
      = (l.find? exists?, as ++ prefixUntil exists? l) := by
  induction l generalizing as with
  | nil => simp [prefixUntil]
  | cons x xs ih =>
    by_cases hx : exists? x = true
    · rw [List.foldl_cons]
      simp only [tryCandidate, if_pos hx]
      rw [foldl_tryCandidate_found]
      simp [List.find?_cons_of_pos _ hx, prefixUntil, hx]
    · have hx' : exists? x = false := by
        cases hxx : exists? x
        · rfl
        · exact absurd hxx hx
      rw [List.foldl_cons]
      have hstep : tryCandidate exists? (none, as) x = (none, as ++ [x]) := by
        simp [tryCandidate, hx']
      rw [hstep, ih (as ++ [x])]
      rw [List.find?_cons_of_neg _ (by simp [hx'])]
      simp [prefixUntil, hx', List.append_assoc]

theorem prefixUntil_of_find?_none (p : α → Bool) (l : List α) (h : l.find? p = none) :
    prefixUntil p l = l := by
  induction l with
  | nil => rfl
  | cons x xs ih =>
    by_cases hx : p x = true
    · rw [List.find?_cons_of_pos _ hx] at h
      cases h
    · rw [List.find?_cons_of_neg _ (by simpa using hx)] at h
      simp only [prefixUntil, if_neg hx]
      rw [ih h]

theorem find?_of_unique {p : α → Bool} {l : List α} {a : α} (ha : a ∈ l) (hpa : p a = true)
    (huniq : ∀ b ∈ l, p b = true → b = a) : l.find? p = some a := by
  induction l with
  | nil => cases ha
  | cons x xs ih =>
    by_cases hx : p x = true
    · have hxa : x = a := huniq x (List.mem_cons_self x xs) hx
      rw [List.find?_cons_of_pos _ hx, hxa]
    · rw [List.find?_cons_of_neg _ (by simpa using hx)]
      rcases List.mem_cons.mp ha with rfl | ha'
      · exact absurd hpa hx
      · exact ih ha' (fun b hb hpb => huniq b (List.mem_cons_of_mem x hb) hpb)

/-- C5: find-existing resolution tries the fallback candidates in the
specified order and returns the first existing one — in particular, if
exactly one candidate exists it is returned regardless of its position —
and when no candidate exists it raises an error carrying, in attempt
order, the first 10 attempted candidates, the original stored path and
the current working directory. -/
theorem fetch_pdf_resolution_order (exists? : String → Bool)
    (envU envF : Option String) (cwd filePath : String) :
    (∀ p : String,
      fetch_pdf_from_database exists? envU envF cwd filePath = Except.ok p ↔
        (resolveCandidates (envOr envU envF) cwd filePath).find? exists? = some p)
    ∧ (∀ p : String, p ∈ resolveCandidates (envOr envU envF) cwd filePath →
        exists? p = true →
        (∀ q ∈ resolveCandidates (envOr envU envF) cwd filePath, exists? q = true → q = p) →
        fetch_pdf_from_database exists? envU envF cwd filePath = Except.ok p)
    ∧ ((resolveCandidates (envOr envU envF) cwd filePath).find? exists? = none →
        fetch_pdf_from_database exists? envU envF cwd filePath
          = Except.error ⟨(resolveCandidates (envOr envU envF) cwd filePath).take 10,
              (resolveCandidates (envOr envU envF) cwd filePath).length, filePath, cwd⟩) := by
  have hfold := foldl_tryCandidate_none exists?
    (resolveCandidates (envOr envU envF) cwd filePath) []
  refine ⟨?_, ?_, ?_⟩
  · intro p
    unfold fetch_pdf_from_database
    rw [hfold]
    cases hf : (resolveCandidates (envOr envU envF) cwd filePath).find? exists? with
    | none => simp [hf]
    | some q => simp [hf]
  · intro p hp hep huniq
    unfold fetch_pdf_from_database
    rw [hfold]
    rw [find?_of_unique hp hep huniq]
  · intro hnone
    unfold fetch_pdf_from_database
    rw [hfold, hnone]
    simp [prefixUntil_of_find?_none _ _ hnone]

/-- Witness for `fetch_pdf_resolution_order`: with the stored path
`/uploads/f.pdf` and `UPLOADS_BASE_DIR=/srv`, only the second candidate
`/srv/uploads/f.pdf` exists and is returned; with no existing file at all
the error enumerates the attempts, the original path and the CWD. -/
theorem fetch_pdf_resolution_order_witness :
    fetch_pdf_from_database (fun s => s == "/srv/uploads/f.pdf") (some "/srv") none
        "/home/app" "/uploads/f.pdf" = Except.ok "/srv/uploads/f.pdf"
    ∧ fetch_pdf_from_database (fun _ => false) (some "/srv") none
        "/home/app" "/uploads/f.pdf"
      = Except.error
          ⟨(resolveCandidates (envOr (some "/srv") none) "/home/app" "/uploads/f.pdf").take 10,
           (resolveCandidates (envOr (some "/srv") none) "/home/app" "/uploads/f.pdf").length,
           "/uploads/f.pdf", "/home/app"⟩ :=
  ⟨(fetch_pdf_resolution_order (fun s => s == "/srv/uploads/f.pdf") (some "/srv") none
      "/home/app" "/uploads/f.pdf").2.1 "/srv/uploads/f.pdf" (by decide) (by decide)
      (by decide),
   (fetch_pdf_resolution_order (fun _ => false) (some "/srv") none
      "/home/app" "/uploads/f.pdf").2.2 (by decide)⟩

theorem strAppend_assoc (a b c : String) : a ++ b ++ c = a ++ (b ++ c) := by
  apply String.ext
  simp [String.data_append, List.append_assoc]

-- =======================================================================
-- Path Resolver, create-for-write direction
-- (src/utils/directory_manager.py, get_output_base_path, lines 16-111)
-- =======================================================================

/-- The characters replaced by `re.sub(r'[<>:"/\\|?*]', '_', file_name)`. -/
def invalidFileChars : List Char := ['<', '>', ':', '"', '/', '\\', '|', '?', '*']

def replaceInvalidChars (s : String) : String :=
  String.mk (s.toList.map (fun c => if invalidFileChars.contains c then '_' else c))

/-- `sanitized_file_name.rsplit('.', 1)[0]` applied when a dot is present:
everything before the last dot. -/
def stripLastExt (s : String) : String :=
  if s.toList.contains '.' then
    String.intercalate "." ((splitOnChar '.' s.toList).map String.mk).dropLast
  else s

/-- File-name sanitization of `get_output_base_path` (lines 63-67):
replace filesystem-invalid characters, then strip the last extension. -/
def sanitizedDirName (fileName : String) : String :=
  stripLastExt (replaceInvalidChars fileName)

/-- `Path(s).is_absolute()` in the POSIX string model. -/
def isAbsolutePath (s : String) : Bool := strStartsWith s "/"

/-- `get_output_base_path` (lines 16-111).  The DB prologue that selects
`jobId`, `fileName` and `outputFilePath` is passed in as arguments;
`.resolve()` is modelled as the identity on the joined path strings (the
inputs here contain no `..` segments), and Python string truthiness of
`output_file_path` is `strTruthy`.  The function only computes a path; it
never consults any filesystem-existence predicate. -/
def get_output_base_path (jobId fileName : String) (outputFilePath : Option String)
    (envOutputsBaseDir envFileStoragePath : Option String) (cwd : String) (osIsNT : Bool) :
    String :=
  match strTruthy outputFilePath with
  | some ofp =>
      match envOr envOutputsBaseDir envFileStoragePath with
      | some base =>
          pjoin base (if strStartsWith ofp "/" then lstripSlash ofp else ofp)
      | none =>
          if isAbsolutePath ofp then ofp
          else if strStartsWith ofp "/" && osIsNT then pjoin cwd (lstripSlash ofp)
          else if strStartsWith ofp "/" then pjoin cwd (lstripSlash ofp)
          else pjoin cwd ofp
  | none =>
      match envOr envOutputsBaseDir envFileStoragePath with
      | some base => pjoin base ("outputs/" ++ jobId ++ "/" ++ sanitizedDirName fileName)
      | none => pjoin cwd ("outputs/" ++ jobId ++ "/" ++ sanitizedDirName fileName)

/-- The outputs root described by the spec: the environment-configured
base (under which the fixed `outputs` directory lives) or, by default,
`outputs` under the current working directory. -/
def specOutputsRoot (envOutputsBaseDir envFileStoragePath : Option String) (cwd : String) :
    String :=
  match envOr envOutputsBaseDir envFileStoragePath with
  | some base => pjoin base "outputs"
  | none => pjoin cwd "outputs"

/-- The claimed output-directory form
`<outputs-root>/<job-id>/<sanitized-file-name>` (following the spec's
words, for comparison with `get_output_base_path`). -/
def specOutputBasePath (jobId fileName : String)
    (envOutputsBaseDir envFileStoragePath : Option String) (cwd : String) : String :=
  pjoin (specOutputsRoot envOutputsBaseDir envFileStoragePath cwd)
    (jobId ++ "/" ++ sanitizedDirName fileName)

/-- C6 counterexample: when the task row already carries an
`outputFilePath`, `get_output_base_path` returns a path based on that
stored value, not a path of the claimed form
`<outputs-root>/<job-id>/<sanitized-file-name>`: for job `j1`, file
`a.pdf`, stored output path `/data/out`, no environment override and CWD
`/home/app`, the code yields `/data/out` while the claimed form is
`/home/app/outputs/j1/a`. -/
theorem output_base_path_form_cex :
    get_output_base_path "j1" "a.pdf" (some "/data/out") none none "/home/app" false
      = "/data/out"
    ∧ specOutputBasePath "j1" "a.pdf" none none "/home/app" = "/home/app/outputs/j1/a"
    ∧ ("/data/out" : String) ≠ "/home/app/outputs/j1/a" := by
  refine ⟨by decide, by decide, by decide⟩

/-- C6 (amended): when no output path is already recorded for the file,
`get_output_base_path` deterministically computes exactly the claimed
form `<outputs-root>/<job-id>/<sanitized-file-name>` — the file name with
filesystem-invalid characters replaced and the last extension stripped,
under the environment-configured outputs root or the default
`outputs` directory below the CWD; when an output path is already
recorded, that stored path is used instead.  The computation is total and
never consults filesystem existence. -/
theorem output_base_path_form (jobId fileName : String)
    (outputFilePath : Option String) (envO envF : Option String) (cwd : String)
    (osIsNT : Bool) (hno : strTruthy outputFilePath = none) :
    get_output_base_path jobId fileName outputFilePath envO envF cwd osIsNT
      = specOutputBasePath jobId fileName envO envF cwd := by
  unfold get_output_base_path specOutputBasePath specOutputsRoot
  rw [hno]
  have h1 : ("outputs/" : String).data = ("outputs" : String).data ++ ("/" : String).data := rfl
  cases envOr envO envF with
  | none =>
      apply String.ext
      simp [pjoin, String.data_append, List.append_assoc, h1]
  | some base =>
      apply String.ext
      simp [pjoin, String.data_append, List.append_assoc, h1]

/-- Witness for `output_base_path_form`: with no recorded output path,
job `j7` and file name `My Report.v2.pdf`, the environment root `/srv`
yields `/srv/outputs/j7/My Report.v2`. -/
theorem output_base_path_form_witness :
    strTruthy (none : Option String) = none
    ∧ get_output_base_path "j7" "My Report.v2.pdf" none (some "/srv") none "/home/app" false
        = specOutputBasePath "j7" "My Report.v2.pdf" (some "/srv") none "/home/app" :=
  ⟨rfl, output_base_path_form "j7" "My Report.v2.pdf" none (some "/srv") none "/home/app"
    false rfl⟩

-- =======================================================================
-- Output Writer
-- (src/extraction/extraction.py format_page_text, lines 177-191;
--  src/utils/directory_manager.py save_text_to_file, lines 174-194;
--  src/pipeline.py page-saving loop, lines 75-84)
-- =======================================================================

/-- `format_page_text`: wrap the page text in start/end markers. -/
def format_page_text (pageNum : Nat) (text : String) : String :=
  "=== PAGE " ++ toString pageNum ++ " START ===\n" ++ text
    ++ "\n=== PAGE " ++ toString pageNum ++ " END ===\n"

/-- Python `f"{page_index:03d}"`: zero-pad to three digits. -/
def pad3 (n : Nat) : String :=
  String.mk (List.replicate (3 - (toString n).length) '0') ++ toString n

/-- `f"page_{page_index:03d}.txt"` (src/pipeline.py line 80). -/
def pageFileName (n : Nat) : String := "page_" ++ pad3 n ++ ".txt"

/-- The filesystem as a partial map from path to (UTF-8 decoded) file
content. -/
structure TextFS where
  store : String → Option String

/-- `save_text_to_file`: `open(directory / filename, "w", encoding="utf-8")`
then a single full write — mode `"w"` truncates, so the content at the
path is replaced outright; the `mkdir(parents=True, exist_ok=True)` call
only ensures the directory exists and never touches file content. -/
def save_text_to_file (fs : TextFS) (directory filename content : String) : TextFS :=
  ⟨fun p => if p = pjoin directory filename then some content else fs.store p⟩

/-- One iteration of the page-saving loop of `process_pdf_extraction`:
format the page text with markers and save it as
`raw_extract_by_page/page_{i:03d}.txt` under the task's base path. -/
def savePageFile (fs : TextFS) (basePath : String) (pageIndex : Nat) (text : String) : TextFS :=
  save_text_to_file fs (pjoin basePath "raw_extract_by_page") (pageFileName pageIndex)
    (format_page_text pageIndex text)

/-- C7: the output writer stores, at
`<base>/raw_extract_by_page/page_{n:03d}.txt`, exactly the page text
wrapped in `=== PAGE n START ===` / `=== PAGE n END ===` markers, and
re-running the write with identical input leaves the filesystem
byte-identical (full overwrite, no duplication, no append).  The
zero-padded, sortable naming convention is evaluated at pages 1, 12 and
123. -/
theorem page_write_format_idempotent (fs : TextFS) (basePath : String) (n : Nat) (t : String) :
    (savePageFile fs basePath n t).store
        (pjoin (pjoin basePath "raw_extract_by_page") (pageFileName n))
      = some (format_page_text n t)
    ∧ savePageFile (savePageFile fs basePath n t) basePath n t = savePageFile fs basePath n t
    ∧ pageFileName 1 = "page_001.txt"
    ∧ pageFileName 12 = "page_012.txt"
    ∧ pageFileName 123 = "page_123.txt"
    ∧ format_page_text 2 "hello" = "=== PAGE 2 START ===\nhello\n=== PAGE 2 END ===\n" := by
  refine ⟨by simp [savePageFile, save_text_to_file], ?_, by decide, by decide, by decide,
    by decide⟩
  unfold savePageFile save_text_to_file
  congr 1
  funext p
  by_cases hp : p = pjoin (pjoin basePath "raw_extract_by_page") (pageFileName n)
  · simp [hp]
  · simp [hp]

-- =======================================================================
-- Extraction Engine (src/extraction/extraction.py, extract_text_by_page,
-- lines 150-174)
--
-- A fitz document is modelled as the outcome of `fitz.open`: either an
-- open failure or a list of pages.  Each page carries the result of
-- `page.get_text()` (which may itself raise) and its positioned content
-- blocks.  Python exceptions are `Except` values, so the `try/finally`
-- of the source is sequencing: the loop's outcome — error or value — is
-- captured first, and `pdf_document.close()` then runs unconditionally
-- on that branch.
-- =======================================================================

structure PdfBlock where
  x0 : Int
  y0 : Int
  x1 : Int
  y1 : Int
  text : String
deriving DecidableEq, Repr

structure PdfPage where
  getTextR : Except String String
  blocks : List PdfBlock

/-- The `for page_num in range(len(pdf_document))` loop: collect
`page.get_text()` per page in order, propagating the first raised
exception. -/
def extractLoop : List PdfPage → Except String (List String)
  | [] => Except.ok []
  | p :: ps =>
      match p.getTextR with
      | Except.error e => Except.error e
      | Except.ok t =>
          match extractLoop ps with
          | Except.error e => Except.error e
          | Except.ok ts => Except.ok (t :: ts)

/-- The observable outcome of one `extract_text_by_page` call: the
returned value or exception, whether a document handle was acquired, and
whether it was closed. -/
structure ExtractOutcome where
  result : Except String (List String)
  opened : Bool
  closed : Bool

/-- `extract_text_by_page`: open the document from bytes (no handle is
acquired if `fitz.open` itself raises), run the page loop inside
`try`, and `close()` in `finally` — unconditionally once open succeeded. -/
def extract_text_by_page (openRes : Except String (List PdfPage)) : ExtractOutcome :=
  match openRes with
  | Except.error e => ⟨Except.error e, false, false⟩
  | Except.ok pages => ⟨extractLoop pages, true, true⟩

theorem extractLoop_ok_map (pages : List PdfPage) (ts : List String)
    (h : extractLoop pages = Except.ok ts) :
    pages.map PdfPage.getTextR = ts.map Except.ok := by
  induction pages generalizing ts with
  | nil =>
    unfold extractLoop at h
    cases h
    rfl
  | cons p ps ih =>
    unfold extractLoop at h
    cases hg : p.getTextR with
    | error e => rw [hg] at h; cases h
    | ok t =>
      rw [hg] at h
      cases hrec : extractLoop ps with
      | error e => rw [hrec] at h; cases h
      | ok ts' =>
        rw [hrec] at h
        cases h
        simp [List.map_cons, hg, ih ts' hrec]

theorem extractLoop_map_ok (pages : List PdfPage) (ts : List String)
    (h : pages.map PdfPage.getTextR = ts.map Except.ok) :
    extractLoop pages = Except.ok ts := by
  induction pages generalizing ts with
  | nil =>
    cases ts with
    | nil => rfl
    | cons t ts' => simp at h
  | cons p ps ih =>
    cases ts with
    | nil => simp at h
    | cons t ts' =>
      simp only [List.map_cons, List.cons.injEq] at h
      obtain ⟨h1, h2⟩ := h
      unfold extractLoop
      rw [h1, ih ts' h2]

/-- C8: on every input — whether `fitz.open` succeeds or raises, and
whether any page's `get_text()` raises — the document handle, once
acquired, is closed before the call returns; and a successful result
contains exactly one text entry per page, in page order, each the
corresponding page's `get_text()` value. -/
theorem extract_releases_and_orders (openRes : Except String (List PdfPage)) :
    ((extract_text_by_page openRes).opened = true → (extract_text_by_page openRes).closed = true)
    ∧ (∀ ts : List String, (extract_text_by_page openRes).result = Except.ok ts →
        ∃ pages : List PdfPage, openRes = Except.ok pages
          ∧ pages.map PdfPage.getTextR = ts.map Except.ok
          ∧ ts.length = pages.length) := by
  cases openRes with
  | error e =>
    refine ⟨?_, ?_⟩
    · intro h
      simp [extract_text_by_page] at h
    · intro ts h
      simp [extract_text_by_page] at h
  | ok pages =>
    refine ⟨fun _ => rfl, ?_⟩
    intro ts h
    simp only [extract_text_by_page] at h
    have hmap := extractLoop_ok_map pages ts h
    refine ⟨pages, rfl, hmap, ?_⟩
    have := congrArg List.length hmap
    simpa using this.symm

/-- Witness for `extract_releases_and_orders` at a concrete two-page
document. -/
theorem extract_releases_and_orders_witness :
    (extract_text_by_page (Except.ok [⟨Except.ok "t1", []⟩, ⟨Except.ok "t2", []⟩])).closed = true
    ∧ ∃ pages : List PdfPage,
        (Except.ok [⟨Except.ok "t1", []⟩, ⟨Except.ok "t2", []⟩]
          : Except String (List PdfPage)) = Except.ok pages
        ∧ pages.map PdfPage.getTextR = (["t1", "t2"] : List String).map Except.ok
        ∧ (["t1", "t2"] : List String).length = pages.length :=
  ⟨(extract_releases_and_orders (Except.ok [⟨Except.ok "t1", []⟩, ⟨Except.ok "t2", []⟩])).1 rfl,
   (extract_releases_and_orders (Except.ok [⟨Except.ok "t1", []⟩, ⟨Except.ok "t2", []⟩])).2
     ["t1", "t2"] rfl⟩

-- Spec-side per-page block pipeline (the spec describes block-based
-- extraction; no such pipeline exists in src/extraction/extraction.py,
-- so it is defined here from the spec's words for comparison).

/-- Reading order on blocks: primary key vertical position, secondary key
horizontal position (non-strict, so the stable sort keeps original order
on ties). -/
def blockLe (a b : PdfBlock) : Bool :=
  decide (a.y0 < b.y0) || (decide (a.y0 = b.y0) && decide (a.x0 ≤ b.x0))

def insertBlock (b : PdfBlock) : List PdfBlock → List PdfBlock
  | [] => [b]
  | x :: xs => if blockLe b x then b :: x :: xs else x :: insertBlock b xs

/-- Stable insertion sort of blocks into reading order. -/
def sortBlocksReadingOrder : List PdfBlock → List PdfBlock
  | [] => []
  | b :: bs => insertBlock b (sortBlocksReadingOrder bs)

/-- Modelled from the spec: the per-page block pipeline the claim
describes — sort blocks into reading order, skip empty block texts,
normalize, skip results empty after normalization or classified as
noise, join the survivors with newlines — parameterized by the Normalizer
and noise classifier the spec refers to (neither exists in src/). -/
def specPageText (normalize : String → String) (isNoise : String → Bool)
    (blocks : List PdfBlock) : String :=
  let ordered := sortBlocksReadingOrder blocks
  let kept := ordered.foldr
    (fun b acc =>
      if b.text = "" then acc
      else
        let t := normalize b.text
        if t = "" then acc
        else if isNoise t then acc
        else t :: acc) []
  String.intercalate "\n" kept

def pageHello : PdfPage := ⟨Except.ok "hello", []⟩

def pageWorld : PdfPage := ⟨Except.ok "world", []⟩

/-- C2 counterexample: the extractor's page text is `page.get_text()`
verbatim and is not a function of the page's positioned blocks: two
pages with identical (empty) block lists yield different page texts, so
no block-based pipeline — in particular not the sort/normalize/noise
pipeline the claim describes, which returns the empty string on an empty
block list for every normalizer and noise classifier — produces it. -/
theorem extract_block_pipeline_cex :
    pageHello.blocks = pageWorld.blocks
    ∧ (extract_text_by_page (Except.ok [pageHello])).result = Except.ok ["hello"]
    ∧ (extract_text_by_page (Except.ok [pageWorld])).result = Except.ok ["world"]
    ∧ (["hello"] : List String) ≠ ["world"]
    ∧ specPageText (fun s => s) (fun _ => false) pageHello.blocks = "" :=
  ⟨rfl, rfl, rfl, by decide, rfl⟩

/-- C2 (amended): for every document, page extraction returns exactly one
entry per page in page order, each entry being that page's plain
`get_text()` output unmodified; no block extraction, reading-order
sorting, normalization or noise filtering is applied to it. -/
theorem extract_plain_text_per_page (pages : List PdfPage) (ts : List String)
    (h : pages.map PdfPage.getTextR = ts.map Except.ok) :
    (extract_text_by_page (Except.ok pages)).result = Except.ok ts := by
  simp only [extract_text_by_page]
  exact extractLoop_map_ok pages ts h

/-- Witness for `extract_plain_text_per_page` at a concrete two-page
document. -/
theorem extract_plain_text_per_page_witness :
    (extract_text_by_page (Except.ok [pageHello, pageWorld])).result
      = Except.ok ["hello", "world"] :=
  extract_plain_text_per_page [pageHello, pageWorld] ["hello", "world"] rfl

-- =======================================================================
-- Persisted store model: Job, Task and DemandFile rows
-- (src/utils/tasks_repository.py; join key Job.demandNoteId =
-- DemandFile.demandNoteId; list order models createdAt order)
-- =======================================================================

structure DemandFile where
  id : String
  demandNoteId : String
  fileName : String
  filePath : Option String
  summaryStatus : SummaryStatus
deriving DecidableEq, Repr

structure TaskRow where
  id : String
  jobId : String
  demandFileId : String
  fileName : String
  filePath : Option String
  outputFilePath : Option String
  outputSummary : String
  status : TaskStatus
deriving DecidableEq, Repr

structure JobRow where
  id : String
  demandNoteId : String
  status : JobStatus
deriving DecidableEq, Repr

structure DB where
  jobs : List JobRow
  demandFiles : List DemandFile
  tasks : List TaskRow
deriving Repr

def DUMMY_TASK_SUMMARY : String :=
  "Hey! This is a dummy summary for your file. We're working hard to make it real."

/-- `get_job_by_id` (lines 24-33). -/
def get_job_by_id (db : DB) (jobId : String) : Option JobRow :=
  db.jobs.find? (fun j => j.id == jobId)

/-- `mark_job_in_progress` (lines 36-46). -/
def mark_job_in_progress (db : DB) (jobId : String) : DB :=
  { db with jobs := db.jobs.map (fun j =>
      if j.id == jobId then { j with status := JobStatus.in_progress } else j) }

/-- `mark_job_failed` (lines 115-125).  The `reason` parameter is accepted
but the UPDATE writes only `status` and `updateTs`; the reason string is
never persisted to the row. -/
def mark_job_failed (db : DB) (jobId : String) (reason : String) : DB :=
  { db with jobs := db.jobs.map (fun j =>
      if j.id == jobId then { j with status := JobStatus.failed } else j) }

/-- The join `"DemandFile" df JOIN "Job" j ON j."demandNoteId" =
df."demandNoteId" WHERE j."id" = job_id` (no status filter). -/
def filesForJob (db : DB) (jobId : String) : List DemandFile :=
  db.demandFiles.filter (fun df =>
    db.jobs.any (fun j => j.id == jobId && j.demandNoteId == df.demandNoteId))

/-- `get_demand_files_for_job` (lines 333-353): the joined files still
marked `not_summarized`, in creation order.  `create_tasks_for_job`
(lines 188-193) selects by the identical condition. -/
def get_demand_files_for_job (db : DB) (jobId : String) : List DemandFile :=
  (filesForJob db jobId).filter (fun df => df.summaryStatus == SummaryStatus.not_summarized)

/-- The row inserted by `create_tasks_for_job` for one demand file
(lines 201-205); `gen_random_uuid()` is modelled by the supplied
generator. -/
def mkTaskForFile (genId : DemandFile → String) (jobId : String) (df : DemandFile) : TaskRow :=
  { id := genId df, jobId := jobId, demandFileId := df.id, fileName := df.fileName,
    filePath := df.filePath, outputFilePath := none, outputSummary := DUMMY_TASK_SUMMARY,
    status := TaskStatus.pending }

/-- `create_tasks_for_job` (lines 180-207): select the job's files still
`not_summarized` and insert one `pending` task per file — with no check
whether a task already exists for that file. -/
def create_tasks_for_job (genId : DemandFile → String) (db : DB) (jobId : String) : DB :=
  { db with tasks := db.tasks
      ++ (get_demand_files_for_job db jobId).map (mkTaskForFile genId jobId) }

/-- The tasks recorded for one demand file (the `WHERE "demandFileId"`
filter of `get_task_by_demand_file_id`, lines 309-327). -/
def tasksForDemandFile (db : DB) (demandFileId : String) : List TaskRow :=
  db.tasks.filter (fun t => t.demandFileId == demandFileId)

-- C3: idempotence of task materialization -----------------------------

def cexFile : DemandFile :=
  { id := "df1", demandNoteId := "dn1", fileName := "a.pdf", filePath := some "/u/a.pdf",
    summaryStatus := SummaryStatus.not_summarized }

def cexDb : DB :=
  { jobs := [{ id := "job1", demandNoteId := "dn1", status := JobStatus.pending }],
    demandFiles := [cexFile], tasks := [] }

/-- C3 counterexample: `create_tasks_for_job` has no per-file existence
guard, so running it twice in succession creates two tasks for a source
file still marked `not_summarized` — not exactly one, and the second run
does recreate a task for a file that already has one. -/
theorem create_tasks_idempotent_cex :
    (tasksForDemandFile
        (create_tasks_for_job (fun _ => "t2")
          (create_tasks_for_job (fun _ => "t1") cexDb "job1") "job1") "df1").length = 2
    ∧ (2 : Nat) ≠ 1 :=
  ⟨by decide, by decide⟩

theorem get_demand_files_create_invariant (genId : DemandFile → String) (db : DB)
    (jobId j2 : String) :
    get_demand_files_for_job (create_tasks_for_job genId db jobId) j2
      = get_demand_files_for_job db j2 := rfl

/-- C3 (amended): each run of `create_tasks_for_job` appends exactly one
new `pending` task per source file still marked `not_summarized`,
regardless of any tasks already present — so running it twice in
succession appends two tasks per such file; every appended task is
`pending` and belongs to a `not_summarized` file of the job (files
already `summarized` get none); the job and file tables are untouched. -/
theorem create_tasks_duplication (genId genId2 : DemandFile → String) (db : DB)
    (jobId : String) :
    ((create_tasks_for_job genId db jobId).tasks).length
        = db.tasks.length + (get_demand_files_for_job db jobId).length
    ∧ (create_tasks_for_job genId db jobId).demandFiles = db.demandFiles
    ∧ (create_tasks_for_job genId db jobId).jobs = db.jobs
    ∧ ((create_tasks_for_job genId2 (create_tasks_for_job genId db jobId) jobId).tasks).length
        = db.tasks.length + 2 * (get_demand_files_for_job db jobId).length
    ∧ (∀ t ∈ (create_tasks_for_job genId db jobId).tasks, t ∉ db.tasks →
        t.status = TaskStatus.pending
          ∧ ∃ df ∈ get_demand_files_for_job db jobId, t.demandFileId = df.id) := by
  refine ⟨?_, rfl, rfl, ?_, ?_⟩
  · simp [create_tasks_for_job, List.length_append, List.length_map]
  · rw [show create_tasks_for_job genId2 (create_tasks_for_job genId db jobId) jobId
        = { create_tasks_for_job genId db jobId with
            tasks := (create_tasks_for_job genId db jobId).tasks
              ++ (get_demand_files_for_job db jobId).map (mkTaskForFile genId2 jobId) }
      from rfl]
    simp [create_tasks_for_job, List.length_append, List.length_map]
    omega
  · intro t ht hnot
    rcases List.mem_append.mp ht with h | h
    · exact absurd h hnot
    · obtain ⟨df, hdf, hmk⟩ := List.mem_map.mp h
      subst hmk
      exact ⟨rfl, df, hdf, rfl⟩

/-- Witness for `create_tasks_duplication` at the concrete one-file
store. -/
theorem create_tasks_duplication_witness :
    ((create_tasks_for_job (fun _ => "t1") cexDb "job1").tasks).length
        = cexDb.tasks.length + (get_demand_files_for_job cexDb "job1").length
    ∧ (mkTaskForFile (fun _ => "t1") "job1" cexFile).status = TaskStatus.pending
      ∧ ∃ df ∈ get_demand_files_for_job cexDb "job1",
          (mkTaskForFile (fun _ => "t1") "job1" cexFile).demandFileId = df.id :=
  ⟨(create_tasks_duplication (fun _ => "t1") (fun _ => "t1") cexDb "job1").1,
   (create_tasks_duplication (fun _ => "t1") (fun _ => "t1") cexDb "job1").2.2.2.2
     (mkTaskForFile (fun _ => "t1") "job1" cexFile) (by decide) (by decide)⟩

-- C10: frame of mark_demand_file_summarized and fetch preference -------

/-- The per-row effect of `mark_demand_file_summarized`'s UPDATE. -/
def summarizeRow (demandFileId outputDirectory : String) (df : DemandFile) : DemandFile :=
  if df.id == demandFileId then
    { df with summaryStatus := SummaryStatus.summarized, filePath := some outputDirectory }
  else df

/-- `mark_demand_file_summarized` (lines 356-373): `UPDATE "DemandFile"
SET "summaryStatus" = 'summarized', "filePath" = <output_directory>
WHERE "id" = <demand_file_id>` — exactly two columns written. -/
def mark_demand_file_summarized (db : DB) (demandFileId outputDirectory : String) : DB :=
  { db with demandFiles := db.demandFiles.map (summarizeRow demandFileId outputDirectory) }

/-- `COALESCE(df."filePath", t."filePath")` in the DB prologue of
`fetch_pdf_from_database` (src/extraction/extraction.py lines 30-51):
the DemandFile's stored path is preferred over the Task's. -/
def coalesceFilePath (df : DemandFile) (t : Option TaskRow) : Option String :=
  match df.filePath with
  | some p => some p
  | none =>
      match t with
      | some tr => tr.filePath
      | none => none

/-- C10: `mark_demand_file_summarized` writes only the `summaryStatus`
and `filePath` columns of the matching DemandFile row — overwriting
`filePath` (the field that held the input path) with the task's output
directory — and leaves every other column, every other file row, and the
job and task tables unchanged; because `fetch_pdf_from_database`'s
COALESCE prefers `DemandFile.filePath` over `Task.filePath`, any
subsequent fetch for that file resolves the output directory, whatever
the task row holds. -/
theorem mark_summarized_frame (db : DB) (demandFileId outputDirectory : String) :
    (mark_demand_file_summarized db demandFileId outputDirectory).jobs = db.jobs
    ∧ (mark_demand_file_summarized db demandFileId outputDirectory).tasks = db.tasks
    ∧ (mark_demand_file_summarized db demandFileId outputDirectory).demandFiles
        = db.demandFiles.map (summarizeRow demandFileId outputDirectory)
    ∧ (∀ df : DemandFile, df.id ≠ demandFileId →
        summarizeRow demandFileId outputDirectory df = df)
    ∧ (∀ df : DemandFile, df.id = demandFileId →
        (summarizeRow demandFileId outputDirectory df).summaryStatus = SummaryStatus.summarized
        ∧ (summarizeRow demandFileId outputDirectory df).filePath = some outputDirectory
        ∧ (summarizeRow demandFileId outputDirectory df).id = df.id
        ∧ (summarizeRow demandFileId outputDirectory df).demandNoteId = df.demandNoteId
        ∧ (summarizeRow demandFileId outputDirectory df).fileName = df.fileName
        ∧ ∀ t : Option TaskRow,
            coalesceFilePath (summarizeRow demandFileId outputDirectory df) t
              = some outputDirectory) := by
  refine ⟨rfl, rfl, rfl, ?_, ?_⟩
  · intro df hne
    simp [summarizeRow, hne]
  · intro df heq
    subst heq
    refine ⟨?_, ?_, ?_, ?_, ?_, ?_⟩ <;> simp [summarizeRow, coalesceFilePath]

def cexFileOther : DemandFile :=
  { id := "df2", demandNoteId := "dn1", fileName := "b.pdf", filePath := none,
    summaryStatus := SummaryStatus.not_summarized }

/-- Witness for `mark_summarized_frame` at concrete rows. -/
theorem mark_summarized_frame_witness :
    summarizeRow "df1" "/out/dir" cexFileOther = cexFileOther
    ∧ (summarizeRow "df1" "/out/dir" cexFile).summaryStatus = SummaryStatus.summarized
      ∧ (summarizeRow "df1" "/out/dir" cexFile).filePath = some "/out/dir"
      ∧ (summarizeRow "df1" "/out/dir" cexFile).id = cexFile.id
      ∧ (summarizeRow "df1" "/out/dir" cexFile).demandNoteId = cexFile.demandNoteId
      ∧ (summarizeRow "df1" "/out/dir" cexFile).fileName = cexFile.fileName
      ∧ ∀ t : Option TaskRow,
          coalesceFilePath (summarizeRow "df1" "/out/dir" cexFile) t = some "/out/dir" :=
  ⟨(mark_summarized_frame cexDb "df1" "/out/dir").2.2.2.1 cexFileOther (by decide),
   (mark_summarized_frame cexDb "df1" "/out/dir").2.2.2.2 cexFile rfl⟩

-- =======================================================================
-- Orchestrator entry point (src/main.py, main, lines 24-178)
--
-- The observable pre-loop behaviour is modelled exactly; the per-file
-- processing loop together with the final status check and reporting
-- (lines 68-167) is abstracted as the `processLoop` parameter, because
-- the zero-file branch (lines 56-61) returns before reaching it — the
-- theorems below therefore hold for every possible loop behaviour.
-- =======================================================================

inductive OrchEvent
  | jobMarkedInProgress
  | jobMarkedFailed (reasonArg : String)
deriving DecidableEq, Repr

/-- `main`: validate the job (silent return if missing), mark it
in_progress, materialize tasks, fetch the job's not-yet-summarized
files; when none are found, mark the job failed with reason
`"No demand files found for this job"` and return; otherwise hand over
to the per-file loop. -/
def mainRun (processLoop : DB → List DemandFile → DB × List OrchEvent)
    (genId : DemandFile → String) (db : DB) (jobId : String) : DB × List OrchEvent :=
  match get_job_by_id db jobId with
  | none => (db, [])
  | some _ =>
      if (get_demand_files_for_job
            (create_tasks_for_job genId (mark_job_in_progress db jobId) jobId) jobId).isEmpty then
        (mark_job_failed (create_tasks_for_job genId (mark_job_in_progress db jobId) jobId)
            jobId "No demand files found for this job",
         [OrchEvent.jobMarkedInProgress,
          OrchEvent.jobMarkedFailed "No demand files found for this job"])
      else
        ((processLoop (create_tasks_for_job genId (mark_job_in_progress db jobId) jobId)
            (get_demand_files_for_job
              (create_tasks_for_job genId (mark_job_in_progress db jobId) jobId) jobId)).1,
         OrchEvent.jobMarkedInProgress
           :: (processLoop (create_tasks_for_job genId (mark_job_in_progress db jobId) jobId)
                (get_demand_files_for_job
                  (create_tasks_for_job genId (mark_job_in_progress db jobId) jobId) jobId)).2)

theorem filesForJob_mark_in_progress (db : DB) (jobId j2 : String) :
    filesForJob (mark_job_in_progress db jobId) j2 = filesForJob db j2 := by
  unfold filesForJob mark_job_in_progress
  congr 1
  funext df
  rw [List.any_map]
  congr 1
  funext j
  by_cases hj : (j.id == jobId) = true
  · simp [Function.comp, hj]
  · simp only [Bool.not_eq_true] at hj
    simp [Function.comp, hj]

theorem get_demand_files_mark_invariant (db : DB) (jobId j2 : String) :
    get_demand_files_for_job (mark_job_in_progress db jobId) j2
      = get_demand_files_for_job db j2 := by
  unfold get_demand_files_for_job
  rw [filesForJob_mark_in_progress]

theorem find?_jobs_map_preserving (f : JobRow → JobRow) (hid : ∀ j, (f j).id = j.id)
    (jobs : List JobRow) (jobId : String) :
    (jobs.map f).find? (fun j => j.id == jobId)
      = (jobs.find? (fun j => j.id == jobId)).map f := by
  induction jobs with
  | nil => rfl
  | cons j js ih =>
    rw [List.map_cons]
    simp only [List.find?]
    rw [hid j]
    by_cases hj : (j.id == jobId) = true
    · rw [hj]
      rfl
    · have hj' : (j.id == jobId) = false := by simpa using hj
      rw [hj']
      exact ih

theorem markInProgressRow_preserves_id (jobId : String) (j : JobRow) :
    ((fun j => if j.id == jobId then { j with status := JobStatus.in_progress } else j) j).id
      = j.id := by
  by_cases hj : (j.id == jobId) = true
  · simp [hj]
  · simp only [Bool.not_eq_true] at hj
    simp [hj]

theorem markFailedRow_preserves_id (jobId : String) (j : JobRow) :
    ((fun j => if j.id == jobId then { j with status := JobStatus.failed } else j) j).id
      = j.id := by
  by_cases hj : (j.id == jobId) = true
  · simp [hj]
  · simp only [Bool.not_eq_true] at hj
    simp [hj]

/-- After the prologue (mark in_progress, create tasks) and
`mark_job_failed`, the job's stored status is `failed`. -/
theorem status_failed_after_prep (genId : DemandFile → String) (db : DB)
    (jobId reason : String) (j0 : JobRow) (hj0 : get_job_by_id db jobId = some j0) :
    (get_job_by_id
        (mark_job_failed (create_tasks_for_job genId (mark_job_in_progress db jobId) jobId)
          jobId reason) jobId).map JobRow.status
      = some JobStatus.failed := by
  unfold get_job_by_id at hj0
  have hp : (j0.id == jobId) = true := by
    have := List.find?_some hj0
    simpa using this
  have hjobs : (mark_job_failed (create_tasks_for_job genId (mark_job_in_progress db jobId)
        jobId) jobId reason).jobs
      = (db.jobs.map
          (fun j => if j.id == jobId then { j with status := JobStatus.in_progress } else j)).map
          (fun j => if j.id == jobId then { j with status := JobStatus.failed } else j) := rfl
  unfold get_job_by_id
  rw [hjobs,
    find?_jobs_map_preserving _ (markFailedRow_preserves_id jobId),
    find?_jobs_map_preserving _ (markInProgressRow_preserves_id jobId),
    hj0]
  have heq : j0.id = jobId := by simpa using hp
  simp [heq]

/-- Shared shape of the zero-file branch of `main`. -/
theorem mainRun_no_files (processLoop : DB → List DemandFile → DB × List OrchEvent)
    (genId : DemandFile → String) (db : DB) (jobId : String) (j0 : JobRow)
    (hj0 : get_job_by_id db jobId = some j0)
    (hempty : get_demand_files_for_job db jobId = []) :
    mainRun processLoop genId db jobId
      = (mark_job_failed (create_tasks_for_job genId (mark_job_in_progress db jobId) jobId)
            jobId "No demand files found for this job",
         [OrchEvent.jobMarkedInProgress,
          OrchEvent.jobMarkedFailed "No demand files found for this job"]) := by
  have hfiles2 : get_demand_files_for_job
      (create_tasks_for_job genId (mark_job_in_progress db jobId) jobId) jobId = [] := by
    rw [get_demand_files_create_invariant, get_demand_files_mark_invariant]
    exact hempty
  unfold mainRun
  rw [hj0, hfiles2]
  rfl

/-- C4: a job whose task materialization yields zero tasks — equivalently,
a job with no source files still marked `not_summarized` — is ended by
the orchestrator in status `failed`, never `completed`: `main` takes the
no-demand-files branch and calls `mark_job_failed` with the explanatory
reason `"No demand files found for this job"` (the reason accompanies
the failure event and is printed; `mark_job_failed` persists only the
status).  The first conjunct records that zero tasks were indeed
materialized. -/
theorem job_zero_tasks_fails
    (processLoop : DB → List DemandFile → DB × List OrchEvent)
    (genId : DemandFile → String) (db : DB) (jobId : String) (j0 : JobRow)
    (hj0 : get_job_by_id db jobId = some j0)
    (hempty : get_demand_files_for_job db jobId = []) :
    ((create_tasks_for_job genId (mark_job_in_progress db jobId) jobId).tasks).length
        = db.tasks.length
    ∧ (get_job_by_id (mainRun processLoop genId db jobId).1 jobId).map JobRow.status
        = some JobStatus.failed
    ∧ (get_job_by_id (mainRun processLoop genId db jobId).1 jobId).map JobRow.status
        ≠ some JobStatus.completed
    ∧ OrchEvent.jobMarkedFailed "No demand files found for this job"
        ∈ (mainRun processLoop genId db jobId).2 := by
  have hmain := mainRun_no_files processLoop genId db jobId j0 hj0 hempty
  have hempty2 : get_demand_files_for_job (mark_job_in_progress db jobId) jobId = [] := by
    rw [get_demand_files_mark_invariant]
    exact hempty
  have hstatus := status_failed_after_prep genId db jobId
    "No demand files found for this job" j0 hj0
  refine ⟨?_, ?_, ?_, ?_⟩
  · have htasks : (create_tasks_for_job genId (mark_job_in_progress db jobId) jobId).tasks
        = db.tasks ++ (get_demand_files_for_job (mark_job_in_progress db jobId) jobId).map
            (mkTaskForFile genId jobId) := rfl
    rw [htasks, hempty2]
    simp
  · rw [hmain]
    exact hstatus
  · rw [hmain, hstatus]
    decide
  · rw [hmain]
    simp

def dbNoFiles : DB :=
  { jobs := [{ id := "j1", demandNoteId := "dn9", status := JobStatus.pending }],
    demandFiles := [], tasks := [] }

/-- Witness for `job_zero_tasks_fails` at a store holding one job and no
demand files. -/
theorem job_zero_tasks_fails_witness :
    ((create_tasks_for_job (fun _ => "t") (mark_job_in_progress dbNoFiles "j1") "j1").tasks).length
        = dbNoFiles.tasks.length
    ∧ (get_job_by_id (mainRun (fun d _ => (d, [])) (fun _ => "t") dbNoFiles "j1").1 "j1").map
          JobRow.status
        = some JobStatus.failed
    ∧ (get_job_by_id (mainRun (fun d _ => (d, [])) (fun _ => "t") dbNoFiles "j1").1 "j1").map
          JobRow.status
        ≠ some JobStatus.completed
    ∧ OrchEvent.jobMarkedFailed "No demand files found for this job"
        ∈ (mainRun (fun d _ => (d, [])) (fun _ => "t") dbNoFiles "j1").2 :=
  job_zero_tasks_fails (fun d _ => (d, [])) (fun _ => "t") dbNoFiles "j1"
    { id := "j1", demandNoteId := "dn9", status := JobStatus.pending } (by decide) (by decide)

/-- C9: for a job all of whose associated source files are already marked
`summarized`, the orchestrator entry point transitions the job to
`in_progress` and then to `failed` with reason
`"No demand files found for this job"`: task materialization and file
fetching consider only `not_summarized` files, so a re-run of an
already-completed job ends it `failed`, not `completed`. -/
theorem rerun_summarized_job_fails
    (processLoop : DB → List DemandFile → DB × List OrchEvent)
    (genId : DemandFile → String) (db : DB) (jobId : String) (j0 : JobRow)
    (hj0 : get_job_by_id db jobId = some j0)
    (hall : ∀ df ∈ filesForJob db jobId, df.summaryStatus = SummaryStatus.summarized) :
    (mainRun processLoop genId db jobId).2
        = [OrchEvent.jobMarkedInProgress,
           OrchEvent.jobMarkedFailed "No demand files found for this job"]
    ∧ (get_job_by_id (mainRun processLoop genId db jobId).1 jobId).map JobRow.status
        = some JobStatus.failed := by
  have hempty : get_demand_files_for_job db jobId = [] := by
    unfold get_demand_files_for_job
    apply List.filter_eq_nil_iff.mpr
    intro df hdf
    simp [hall df hdf]
  have hmain := mainRun_no_files processLoop genId db jobId j0 hj0 hempty
  refine ⟨?_, ?_⟩
  · rw [hmain]
  · rw [hmain]
    exact status_failed_after_prep genId db jobId "No demand files found for this job" j0 hj0

def dbAllSummarized : DB :=
  { jobs := [{ id := "j2", demandNoteId := "dn2", status := JobStatus.completed }],
    demandFiles := [{ id := "dfs1", demandNoteId := "dn2", fileName := "a.pdf",
                      filePath := some "/out/a", summaryStatus := SummaryStatus.summarized }],
    tasks := [] }

/-- Witness for `rerun_summarized_job_fails` at a store whose single
demand file is already summarized. -/
theorem rerun_summarized_job_fails_witness :
    (mainRun (fun d _ => (d, [])) (fun _ => "t") dbAllSummarized "j2").2
        = [OrchEvent.jobMarkedInProgress,
           OrchEvent.jobMarkedFailed "No demand files found for this job"]
    ∧ (get_job_by_id
          (mainRun (fun d _ => (d, [])) (fun _ => "t") dbAllSummarized "j2").1 "j2").map
          JobRow.status
        = some JobStatus.failed :=
  rerun_summarized_job_fails (fun d _ => (d, [])) (fun _ => "t") dbAllSummarized "j2"
    { id := "j2", demandNoteId := "dn2", status := JobStatus.completed } (by decide) (by decide)
